import Mathlib

/-!
Verification development for the `reading-notes` repository
(educational notebooks: hands-on-machine-learning Chapters 12/13/14,
python-data-science-handbook numpy/pandas notebooks).

Each notebook function that the specification talks about is embedded
shallowly: pure Python/TensorFlow code becomes a Lean function, machine
floats become exact rationals (`ℚ`) with library square roots kept
abstract as a function parameter, byte strings become `List Char`,
fallible library calls return `Option`, and the file-writing effect of
`save_tfrecords` is modelled by explicitly returning the written file
contents.
-/

set_option maxRecDepth 10000

namespace Chapter12

/-- `tf.nn.moments(X, axes=-1, keepdims=True)`, first component: the mean
of one row (the last axis). -/
def rowMean (xs : List ℚ) : ℚ := xs.sum / xs.length

/-- `tf.nn.moments(X, axes=-1, keepdims=True)`, second component: the
population variance of one row (the last axis). -/
def rowVariance (xs : List ℚ) : ℚ :=
  (xs.map (fun x => (x - rowMean xs) ^ 2)).sum / xs.length

/-- Pointwise combination of three equally long lists; models elementwise
tensor arithmetic with the per-feature weight vectors broadcast along the
batch axis. -/
def zipWith3 (f : α → β → γ → δ) : List α → List β → List γ → List δ
  | a :: as, b :: bs, c :: cs => f a b c :: zipWith3 f as bs cs
  | _, _, _ => []

/-- One row of the custom layer's `call` from Chapter-12:
`self.alpha * (X - mean) / (tf.sqrt(variance + self.eps)) + self.beta`.
`sqrtFn` stands for the library's `tf.sqrt`. -/
def layerNormRow (sqrtFn : ℚ → ℚ) (eps : ℚ) (alpha beta xs : List ℚ) : List ℚ :=
  zipWith3 (fun a x b => a * (x - rowMean xs) / sqrtFn (rowVariance xs + eps) + b)
    alpha xs beta

/-- The custom `LayerNormalization.call` of Chapter-12 applied to a batch:
each row (last axis) is normalized with its own moments, `alpha` and
`beta` broadcast over rows.  The layer's default is `eps = 0.001`, and
`build` initializes `alpha` with ones and `beta` with zeros. -/
def layerNormalization_call (sqrtFn : ℚ → ℚ) (eps : ℚ) (alpha beta : List ℚ)
    (X : List (List ℚ)) : List (List ℚ) :=
  X.map (layerNormRow sqrtFn eps alpha beta)

/-- One row of the native layer, following the documented library
contract quoted by the spec: `(x - mean) / sqrt(variance + epsilon)`
scaled by `gamma` and shifted by `beta`, moments over the last axis. -/
def kerasLayerNormRow (sqrtFn : ℚ → ℚ) (eps : ℚ) (gamma beta xs : List ℚ) : List ℚ :=
  zipWith3 (fun x g b => (x - rowMean xs) / sqrtFn (rowVariance xs + eps) * g + b)
    xs gamma beta

/-- The native `keras.layers.LayerNormalization` per its documented
contract (the comparison target of the refinement claim): default
`epsilon = 0.001`, `gamma` initialized to ones, `beta` to zeros. -/
def kerasLayerNormalization (sqrtFn : ℚ → ℚ) (eps : ℚ) (gamma beta : List ℚ)
    (X : List (List ℚ)) : List (List ℚ) :=
  X.map (kerasLayerNormRow sqrtFn eps gamma beta)

end Chapter12

namespace Chapter13

/-- A dense tensor: a shape together with the row-major flat data.
Entries are `Nat` because the images are `uint8`. -/
structure Tensor where
  shape : List Nat
  data : List Nat
deriving DecidableEq

/-- The byte strings that flow through the `'image'` feature: either the
empty string (the parser default) or the `tf.io.serialize_tensor`
encoding of a tensor. -/
inductive TensorBytes where
  | empty
  | tensorProto (t : Tensor)
deriving DecidableEq

/-- `tf.io.serialize_tensor`: encodes a tensor into its TensorProto
bytes. -/
def serialize_tensor (t : Tensor) : TensorBytes := TensorBytes.tensorProto t

/-- `tf.io.parse_tensor`: the documented inverse of
`serialize_tensor`; it raises (here: `none`) on bytes that are not a
serialized TensorProto, in particular on the empty string. -/
def parse_tensor : TensorBytes → Option Tensor
  | TensorBytes.empty => none
  | TensorBytes.tensorProto t => some t

/-- `tf.reshape(t, shape)`: raises (here: `none`) unless the data size
matches the requested shape. -/
def reshape (t : Tensor) (shape : List Nat) : Option Tensor :=
  if t.data.length = shape.prod then some ⟨shape, t.data⟩ else none

/-- The feature map of one serialized `Example` record as
`tf.io.parse_single_example` sees it: each of the two features declared
by the notebook's schema may be present or missing. -/
structure RawExample where
  image : Option TensorBytes
  label : Option Int
deriving DecidableEq

/-- `create_example` from Chapter-13: packs the serialized image tensor
and the label into an `Example` with features `'image'` and `'label'`. -/
def create_example (image : Tensor) (label : Int) : RawExample :=
  ⟨some (serialize_tensor image), some label⟩

/-- `preprocess` from Chapter-13: parses a serialized record with
`FixedLenFeature` defaults `""` for `'image'` and `-1` for `'label'`,
parses the image bytes back into a tensor and reshapes it to `[28, 28]`.
`none` models an exception propagating out of the cell. -/
def preprocess (tfrecord : RawExample) : Option (Tensor × Int) :=
  let image_bytes := tfrecord.image.getD TensorBytes.empty
  let label := tfrecord.label.getD (-1)
  (parse_tensor image_bytes).bind fun image =>
    (reshape image [28, 28]).map fun reshaped => (reshaped, label)

/-- A token: a byte string, as `tf.strings.split` produces them. -/
abbrev Token := List Char

/-- The padding token `b'<pad>'`. -/
def padToken : Token := "<pad>".data

/-- The whitespace class of the regex `\s` (RE2). -/
def isWsChar (c : Char) : Bool :=
  c = ' ' || c = '\t' || c = '\n' || c = '\r' || c = '\x0b' || c = '\x0c'

/-- After `<br` was read: consume `\s*/?>` and return the remainder. -/
def brTail : List Char → Option (List Char)
  | [] => none
  | c :: rest =>
    if isWsChar c then brTail rest
    else if c = '/' then
      match rest with
      | r1 :: r2 => if r1 = '>' then some r2 else none
      | [] => none
    else if c = '>' then some rest
    else none

/-- Try to match the regex `<br\s*/?>` at the head of the input,
returning the remainder after the match. -/
def brMatch (cs : List Char) : Option (List Char) :=
  match cs with
  | c1 :: c2 :: c3 :: rest =>
    if c1 = '<' && c2 = 'b' && c3 = 'r' then brTail rest else none
  | _ => none

theorem brTail_length_lt : ∀ (cs r : List Char), brTail cs = some r → r.length < cs.length := by
  intro cs
  induction cs with
  | nil => intro r h; simp [brTail] at h
  | cons c rest ih =>
    intro r h
    simp only [brTail] at h
    split at h
    · exact Nat.lt_trans (ih r h) (by simp)
    · split at h
      · split at h
        · split at h
          · cases h
            simp only [List.length_cons]
            omega
          · cases h
        · cases h
      · split at h
        · cases h
          simp
        · cases h

theorem brMatch_length_lt (cs r : List Char) (h : brMatch cs = some r) :
    r.length < cs.length := by
  unfold brMatch at h
  split at h
  · split at h
    · have := brTail_length_lt _ r h
      simp only [List.length_cons]
      omega
    · cases h
  · cases h

/-- `tf.strings.regex_replace(Z, b'<br\s*/?>', b' ')`: global,
leftmost, non-overlapping replacement of break tags by one space. -/
def replaceBr : List Char → List Char
  | [] => []
  | c :: cs =>
    match h : brMatch (c :: cs) with
    | some r => ' ' :: replaceBr r
    | none => c :: replaceBr cs
termination_by l => l.length
decreasing_by
  · exact brMatch_length_lt _ _ h
  · simp

/-- `tf.strings.regex_replace(Z, b'[^a-z]', b' ')` acting on one
character: anything outside `a`-`z` becomes a space. -/
def keepAZ (c : Char) : Char :=
  if 'a' ≤ c && c ≤ 'z' then c else ' '

/-- Accumulator-passing worker for whitespace splitting; `cur` holds the
current (reversed) in-progress token. -/
def splitWsGo : List Char → List Char → List Token
  | [], cur => if cur = [] then [] else [cur.reverse]
  | c :: cs, cur =>
    if isWsChar c then
      if cur = [] then splitWsGo cs [] else cur.reverse :: splitWsGo cs []
    else splitWsGo cs (c :: cur)

/-- `tf.strings.split(Z)` on one string: split on runs of whitespace,
producing no empty tokens. -/
def splitWs (s : List Char) : List Token := splitWsGo s []

/-- `RaggedTensor.to_tensor(shape=[batch, 50], default_value=b'<pad>')`
acting on one ragged row: truncate to the target width and pad with the
default token. -/
def toTensorRow (width : Nat) (dflt : Token) (row : List Token) : List Token :=
  row.take width ++ List.replicate (width - row.length) dflt

/-- `preprocess_text` from Chapter-13.  The target shape is
`tf.shape(X_batch) * [1, 0] + [0, 50]`, i.e. the batch size with the
hard-coded constant 50 as second dimension — `n_words` is never read
(the source's default is 50). -/
def preprocess_text (X_batch : List (List Char)) (n_words : Nat) : List (List Token) :=
  let Z1 := X_batch.map (List.take 300)
  let Z2 := Z1.map (List.map Char.toLower)
  let Z3 := Z2.map replaceBr
  let Z4 := Z3.map (List.map keepAZ)
  let Z5 := Z4.map splitWs
  Z5.map (toTensorRow 50 padToken)

/-- The path formatting `f"{name}_{idx:02d}.tfrecord"` used by
`save_tfrecords`. -/
def tfrecordName (name : String) (idx : Nat) : String :=
  name ++ "_" ++ (if idx < 10 then "0" ++ toString idx else toString idx) ++ ".tfrecord"

/-- `writers[i].write(ex)`: append one serialized example to file `i`.
The on-disk state is the explicit list of file contents. -/
def writeTo (files : List (List RawExample)) (i : Nat) (ex : RawExample) :
    List (List RawExample) :=
  files.set i (files.getD i [] ++ [ex])

/-- `save_tfrecords` from Chapter-13: open `n_records` writers on the
paths `f"{name}_{idx:02d}.tfrecord"`, write the serialized example of
position `idx` of the enumerated dataset to writer `idx % n_records`,
and return the file paths.  The second component is the resulting
on-disk state (the contents of each file, in write order). -/
def save_tfrecords (name : String) (data : List (Tensor × Int)) (n_records : Nat) :
    List String × List (List RawExample) :=
  ((List.range n_records).map (tfrecordName name),
   data.enum.foldl
     (fun files p => writeTo files (p.1 % n_records) (create_example p.2.1 p.2.2))
     (List.replicate n_records []))

/-- `counter[word] += 1` on a `collections.Counter` represented as an
association list in insertion order: increment the existing entry, or
append a fresh entry with count 1. -/
def bump (acc : List (Token × Nat)) (w : Token) : List (Token × Nat) :=
  if acc.any (fun p => p.1 == w) then
    acc.map (fun p => if p.1 = w then (p.1, p.2 + 1) else p)
  else acc ++ [(w, 1)]

/-- The body of the word loop in `get_vocabulary`:
`if word != b'<pad>': counter[word] += 1`. -/
def counterStep (acc : List (Token × Nat)) (w : Token) : List (Token × Nat) :=
  if w = padToken then acc else bump acc w

/-- The two nested `for` loops of `get_vocabulary` building the
`Counter` over the preprocessed reviews. -/
def counterOf (rows : List (List Token)) : List (Token × Nat) :=
  rows.foldl (fun counter words => words.foldl counterStep counter) []

/-- `Counter.most_common(k)`: the entries sorted by count in descending
order (stably, as Python's `sorted` does), truncated to the `k` most
frequent. -/
def most_common (counts : List (Token × Nat)) (k : Nat) : List (Token × Nat) :=
  (counts.mergeSort (fun a b => decide (b.2 ≤ a.2))).take k

/-- `get_vocabulary` from Chapter-13: preprocess the sample (with the
default `n_words = 50`), count every non-pad word, and return `<pad>`
followed by the words of the `max_size` most common entries. -/
def get_vocabulary (data_sample : List (List Char)) (max_size : Nat) : List Token :=
  padToken :: (most_common (counterOf (preprocess_text data_sample 50)) max_size).map Prod.fst

/-- `tf.one_hot(t, n)` for one index: the length-`n` 0/1 indicator
vector of `t` (all zeros when `t` is out of range). -/
def one_hot (t n : Nat) : List Nat :=
  (List.range n).map (fun j => if j = t then 1 else 0)

/-- Elementwise addition of two equally long count vectors. -/
def vecAdd (a b : List Nat) : List Nat := List.zipWith (· + ·) a b

/-- `BagOfWords.call` from Chapter-13: one-hot encode every token id,
`tf.reduce_sum(..., axis=1)` over the sequence axis, then drop column 0
(the `<pad>` column) with `[:, 1:]`. -/
def bagOfWords_call (n_tokens : Nat) (inputs : List (List Nat)) : List (List Nat) :=
  inputs.map (fun row =>
    ((row.map (fun t => one_hot t n_tokens)).foldr vecAdd
      (List.replicate n_tokens 0)).drop 1)

end Chapter13

namespace Chapter14

/-- `keras.applications.mobilenet_v2.preprocess_input` per its
documented contract: scale pixel values to `[-1, 1]` via
`x / 127.5 - 1`, elementwise. -/
def preprocess_input (t : List (List ℚ)) : List (List ℚ) :=
  t.map (List.map (fun x => x / (255 / 2) - 1))

/-- `preprocess` from Chapter-14: resize the image to 224x224 (the
bilinear `tf.image.resize` is internal to the library and passed in as
`resizeFn`), run MobileNetV2's `preprocess_input`, and keep the label
unchanged. -/
def preprocess (resizeFn : List (List ℚ) → List (List ℚ)) (image : List (List ℚ))
    (label : Int) : List (List ℚ) × Int :=
  (preprocess_input (resizeFn image), label)

end Chapter14

/-- Noninterference harness for Chapter-13's `preprocess`: the function
evaluated in a kernel context `ctx` that carries whatever another
notebook defined or mutated.  The body is exactly `Chapter13.preprocess`
applied to the record — the source mentions nothing from any other
notebook. -/
def chapter13_preprocess_in_context {σ : Type} (ctx : σ)
    (tfrecord : Chapter13.RawExample) : Option (Chapter13.Tensor × Int) :=
  Chapter13.preprocess tfrecord

/-- Noninterference harness for Chapter-14's `preprocess`, analogous to
`chapter13_preprocess_in_context`. -/
def chapter14_preprocess_in_context {σ : Type} (ctx : σ)
    (resizeFn : List (List ℚ) → List (List ℚ)) (image : List (List ℚ))
    (label : Int) : List (List ℚ) × Int :=
  Chapter14.preprocess resizeFn image label

/-- A concrete 28x28 `uint8` image used to instantiate theorems. -/
def exImage : Chapter13.Tensor := ⟨[28, 28], List.replicate 784 0⟩

/- ### Helper lemmas for C1 -/

/-- At the initial weights (ones and zeros) the two per-row formulas
agree, whatever the shared square-root function returns. -/
theorem layerNormRow_eq_kerasRow (sqrtFn : ℚ → ℚ) (eps : ℚ) (xs : List ℚ) :
    Chapter12.layerNormRow sqrtFn eps (List.replicate xs.length 1)
      (List.replicate xs.length 0) xs
    = Chapter12.kerasLayerNormRow sqrtFn eps (List.replicate xs.length 1)
      (List.replicate xs.length 0) xs := by
  unfold Chapter12.layerNormRow Chapter12.kerasLayerNormRow
  generalize Chapter12.rowMean xs = m
  generalize sqrtFn (Chapter12.rowVariance xs + eps) = s
  induction xs with
  | nil => rfl
  | cons x xs ih =>
    simp only [List.length_cons, List.replicate_succ, Chapter12.zipWith3]
    rw [show (1 : ℚ) * (x - m) / s + 0 = (x - m) / s * 1 + 0 by ring, ih]

/-- C1: with `alpha` all ones, `beta` all zeros and the shared default
`eps = 0.001`, the custom `LayerNormalization.call` of Chapter-12 and the
native keras layer (per its documented contract) return the same tensor
on every input batch, for any interpretation of the library square
root. -/
theorem C1_layerNorm_matches_keras (sqrtFn : ℚ → ℚ) (X : List (List ℚ)) (d : Nat)
    (h : ∀ row ∈ X, row.length = d) :
    Chapter12.layerNormalization_call sqrtFn (1 / 1000) (List.replicate d 1)
      (List.replicate d 0) X
    = Chapter12.kerasLayerNormalization sqrtFn (1 / 1000) (List.replicate d 1)
      (List.replicate d 0) X := by
  unfold Chapter12.layerNormalization_call Chapter12.kerasLayerNormalization
  refine List.map_congr_left fun row hrow => ?_
  rw [← h row hrow]
  exact layerNormRow_eq_kerasRow sqrtFn (1 / 1000) row

/-- Witness for C1 at a concrete 2x2 batch with the identity in place of
the square root. -/
theorem C1_layerNorm_matches_keras_witness :
    Chapter12.layerNormalization_call (fun q => q) (1 / 1000) (List.replicate 2 1)
      (List.replicate 2 0) [[1, 2], [3, 4]]
    = Chapter12.kerasLayerNormalization (fun q => q) (1 / 1000) (List.replicate 2 1)
      (List.replicate 2 0) [[1, 2], [3, 4]] :=
  C1_layerNorm_matches_keras (fun q => q) [[1, 2], [3, 4]] 2 (by decide)

/- ### C2: the serialization pair is a round trip -/

/-- C2 counterexample: at a concrete 28x28 image and label 3, parsing
the serialized example returns exactly the original image (reshaped to
`[28, 28]`) with the original label — contradicting the claim that the
pair does not form a round-trip identity. -/
theorem C2_roundtrip_counterexample :
    Chapter13.preprocess (Chapter13.create_example exImage 3) = some (exImage, 3) := by
  rfl

/-- C2 (amended): `create_example` and `preprocess` do form a round-trip
identity law: for every 28x28 image tensor and every label, parsing the
serialized example returns the original image and label. -/
theorem C2_roundtrip_identity (img : Chapter13.Tensor) (lbl : Int)
    (hshape : img.shape = [28, 28]) (hlen : img.data.length = 784) :
    Chapter13.preprocess (Chapter13.create_example img lbl) = some (img, lbl) := by
  cases img with
  | mk shape data =>
    simp only at hshape hlen
    subst hshape
    simp [Chapter13.preprocess, Chapter13.create_example, Chapter13.serialize_tensor,
      Chapter13.parse_tensor, Chapter13.reshape, hlen]

/-- Witness for C2's amended round-trip law at a concrete image. -/
theorem C2_roundtrip_identity_witness :
    Chapter13.preprocess (Chapter13.create_example exImage 5) = some (exImage, 5) :=
  C2_roundtrip_identity exImage 5 rfl (by simp [exImage])

/- ### C3: missing features -/

/-- C3 counterexample: on a record whose `'label'` feature is missing
(image intact), `preprocess` does not raise — it substitutes the declared
default `-1` and succeeds, contradicting the claim that every record with
a missing feature makes `preprocess` raise. -/
theorem C3_missing_label_counterexample :
    Chapter13.preprocess ⟨some (Chapter13.serialize_tensor exImage), none⟩
      = some (exImage, -1) := by
  rfl

/-- C3 (amended): `preprocess` substitutes the schema defaults for
missing features: a record missing `'image'` still fails (the default
empty string is not a parseable TensorProto, so `parse_tensor` raises),
while a record missing only `'label'` is recovered with the default
label `-1`. -/
theorem C3_missing_feature_behavior :
    (∀ lbl : Option Int, Chapter13.preprocess ⟨none, lbl⟩ = none)
    ∧ (∀ img : Chapter13.Tensor, img.data.length = 784 →
        Chapter13.preprocess ⟨some (Chapter13.serialize_tensor img), none⟩
          = some (⟨[28, 28], img.data⟩, -1)) := by
  constructor
  · intro lbl
    rfl
  · intro img hlen
    simp [Chapter13.preprocess, Chapter13.serialize_tensor, Chapter13.parse_tensor,
      Chapter13.reshape, hlen]

/-- Witness for C3's amended behavior at concrete records. -/
theorem C3_missing_feature_behavior_witness :
    Chapter13.preprocess ⟨none, some 7⟩ = none
    ∧ Chapter13.preprocess ⟨some (Chapter13.serialize_tensor exImage), none⟩
        = some (⟨[28, 28], exImage.data⟩, -1) :=
  ⟨C3_missing_feature_behavior.1 (some 7),
   C3_missing_feature_behavior.2 exImage (by simp [exImage])⟩

/- ### C4: `n_words` is dead -/

/-- C4: `preprocess_text` never reads `n_words`: its result equals the
result at the default 50, and every output row has exactly 50 columns
(long rows truncated, short rows padded with `<pad>`). -/
theorem C4_preprocess_text_ignores_n_words (X : List (List Char)) (n : Nat)
    (hX : X ≠ []) (hn : 0 < n) :
    Chapter13.preprocess_text X n = Chapter13.preprocess_text X 50
    ∧ ∀ row ∈ Chapter13.preprocess_text X n, row.length = 50 := by
  refine ⟨rfl, ?_⟩
  intro row hrow
  simp only [Chapter13.preprocess_text, List.mem_map] at hrow
  obtain ⟨r, -, rfl⟩ := hrow
  simp only [Chapter13.toTensorRow, List.length_append, List.length_take,
    List.length_replicate]
  omega

/-- Witness for C4 at a one-string batch and `n_words = 7`. -/
theorem C4_preprocess_text_ignores_n_words_witness :
    Chapter13.preprocess_text [['h', 'i']] 7 = Chapter13.preprocess_text [['h', 'i']] 50
    ∧ ∀ row ∈ Chapter13.preprocess_text [['h', 'i']] 7, row.length = 50 :=
  C4_preprocess_text_ignores_n_words [['h', 'i']] 7 (by decide) (by decide)

/- ### C5: BagOfWords counts occurrences -/

theorem one_hot_length (x n : Nat) : (Chapter13.one_hot x n).length = n := by
  simp [Chapter13.one_hot]

theorem foldr_vecAdd_length (n : Nat) (row : List Nat) :
    ((row.map (fun x => Chapter13.one_hot x n)).foldr Chapter13.vecAdd
      (List.replicate n 0)).length = n := by
  induction row with
  | nil => simp
  | cons x row ih =>
    simp [Chapter13.vecAdd, one_hot_length, ih]

theorem getD_vecAdd (a b : List Nat) (t : Nat) (ha : t < a.length) (hb : t < b.length) :
    (Chapter13.vecAdd a b).getD t 0 = a.getD t 0 + b.getD t 0 := by
  simp [Chapter13.vecAdd, List.getD_eq_getElem?_getD, List.getElem?_zipWith,
    List.getElem?_eq_getElem, ha, hb]

theorem getD_one_hot (x n t : Nat) (ht : t < n) :
    (Chapter13.one_hot x n).getD t 0 = if t = x then 1 else 0 := by
  simp [Chapter13.one_hot, List.getD_eq_getElem?_getD, List.getElem?_map,
    List.getElem?_range, ht]

theorem foldr_one_hot_count (n t : Nat) (ht : t < n) (row : List Nat) :
    ((row.map (fun x => Chapter13.one_hot x n)).foldr Chapter13.vecAdd
      (List.replicate n 0)).getD t 0 = row.count t := by
  induction row with
  | nil =>
    simp [List.getD_eq_getElem?_getD, List.getElem?_replicate, ht]
  | cons x row ih =>
    simp only [List.map_cons, List.foldr_cons]
    rw [getD_vecAdd _ _ t (by simpa [one_hot_length] using ht)
      (by rw [foldr_vecAdd_length]; exact ht)]
    rw [getD_one_hot x n t ht, ih, List.count_cons]
    by_cases hxt : x = t
    · subst hxt
      simp [Nat.add_comm]
    · have htx : ¬t = x := fun h => hxt h.symm
      simp [hxt, htx]

/-- C5: for every 2-D batch of token ids below `n_tokens` and every real
token id `1 ≤ t < n_tokens`, `BagOfWords.call` returns at row `i`,
column `t - 1` the number of occurrences of `t` in row `i`; column 0
(the pad token) is dropped. -/
theorem C5_bagOfWords_counts (n_tokens : Nat) (inputs : List (List Nat)) (i t : Nat)
    (hi : i < inputs.length)
    (hrange : ∀ row ∈ inputs, ∀ x ∈ row, x < n_tokens)
    (ht1 : 1 ≤ t) (ht2 : t < n_tokens) :
    ((Chapter13.bagOfWords_call n_tokens inputs).getD i []).getD (t - 1) 0
      = (inputs.getD i []).count t := by
  have hrow : inputs.getD i [] = inputs[i] := by
    rw [List.getD_eq_getElem?_getD, List.getElem?_eq_getElem hi]
    rfl
  have hcall : (Chapter13.bagOfWords_call n_tokens inputs).getD i []
      = (((inputs[i]).map (fun x => Chapter13.one_hot x n_tokens)).foldr
          Chapter13.vecAdd (List.replicate n_tokens 0)).drop 1 := by
    unfold Chapter13.bagOfWords_call
    rw [List.getD_eq_getElem?_getD, List.getElem?_map, List.getElem?_eq_getElem hi]
    rfl
  rw [hcall, hrow, List.getD_eq_getElem?_getD, List.getElem?_drop,
    show 1 + (t - 1) = t by omega, ← List.getD_eq_getElem?_getD]
  exact foldr_one_hot_count n_tokens t ht2 inputs[i]

/-- Witness for C5: in the batch `[[1, 2, 1, 0]]` with 3 tokens, column
0 of the output row holds the two occurrences of token 1. -/
theorem C5_bagOfWords_counts_witness :
    ((Chapter13.bagOfWords_call 3 [[1, 2, 1, 0]]).getD 0 []).getD (1 - 1) 0
      = ([[1, 2, 1, 0]].getD 0 []).count 1 :=
  C5_bagOfWords_counts 3 [[1, 2, 1, 0]] 0 1 (by decide) (by decide) (by decide) (by decide)

/- ### C6, C7: save_tfrecords -/

theorem getD_writeTo_self (files : List (List Chapter13.RawExample)) (i : Nat)
    (ex : Chapter13.RawExample) (hi : i < files.length) :
    (Chapter13.writeTo files i ex).getD i [] = files.getD i [] ++ [ex] := by
  rw [Chapter13.writeTo, List.getD_eq_getElem?_getD, List.getElem?_set_self hi]
  rfl

theorem getD_writeTo_ne (files : List (List Chapter13.RawExample)) (i k : Nat)
    (ex : Chapter13.RawExample) (hik : i ≠ k) :
    (Chapter13.writeTo files i ex).getD k [] = files.getD k [] := by
  rw [Chapter13.writeTo, List.getD_eq_getElem?_getD, List.getElem?_set_ne hik,
    ← List.getD_eq_getElem?_getD]

/-- Unrolling the writer loop of `save_tfrecords`: after folding the
enumerated tail starting at position `s` over an accumulator of `n`
files, file `k` holds its previous contents followed by the serialized
examples whose positions are congruent to `k` mod `n`, in order. -/
theorem save_fold_getD (n : Nat) (hn : 0 < n) (l : List (Chapter13.Tensor × Int)) :
    ∀ (s : Nat) (acc : List (List Chapter13.RawExample)), acc.length = n →
    ∀ k, k < n →
    ((List.enumFrom s l).foldl
        (fun files p =>
          Chapter13.writeTo files (p.1 % n) (Chapter13.create_example p.2.1 p.2.2))
        acc).getD k []
      = acc.getD k []
        ++ ((List.enumFrom s l).filter (fun p => p.1 % n == k)).map
            (fun p => Chapter13.create_example p.2.1 p.2.2) := by
  induction l with
  | nil =>
    intro s acc hacc k hk
    simp
  | cons d l ih =>
    intro s acc hacc k hk
    simp only [List.enumFrom_cons, List.foldl_cons, List.filter_cons]
    rw [ih (s + 1) (Chapter13.writeTo acc (s % n) (Chapter13.create_example d.1 d.2))
      (by simp [Chapter13.writeTo, hacc]) k hk]
    by_cases hsk : s % n = k
    · rw [if_pos (by simp [hsk]), hsk,
        getD_writeTo_self acc k _ (by rw [hacc]; exact hk), List.map_cons,
        List.append_assoc]
      rfl
    · rw [if_neg (by simp [hsk]), getD_writeTo_ne acc (s % n) k _ hsk]

theorem save_fold_length (n : Nat) (l : List (Nat × (Chapter13.Tensor × Int))) :
    ∀ acc : List (List Chapter13.RawExample),
    (l.foldl
        (fun files p =>
          Chapter13.writeTo files (p.1 % n) (Chapter13.create_example p.2.1 p.2.2))
        acc).length = acc.length := by
  induction l with
  | nil => intro acc; rfl
  | cons p l ih =>
    intro acc
    rw [List.foldl_cons, ih]
    simp [Chapter13.writeTo]

/-- The file contents produced by `save_tfrecords`: file `k` holds
exactly the serialized examples at input positions congruent to `k`
mod `n_records`, in input order. -/
theorem save_tfrecords_files_getD (name : String) (data : List (Chapter13.Tensor × Int))
    (n : Nat) (hn : 0 < n) (k : Nat) (hk : k < n) :
    (Chapter13.save_tfrecords name data n).2.getD k []
      = (data.enum.filter (fun p => p.1 % n == k)).map
          (fun p => Chapter13.create_example p.2.1 p.2.2) := by
  have h := save_fold_getD n hn data 0 (List.replicate n []) (by simp) k hk
  have hinit : (List.replicate n ([] : List Chapter13.RawExample)).getD k [] = [] := by
    rw [List.getD_eq_getElem?_getD, List.getElem?_replicate, if_pos hk]
    rfl
  rw [hinit, List.nil_append] at h
  exact h

/-- C7: `save_tfrecords` distributes the enumerated dataset round-robin:
it returns the `n_records` paths `f"{name}_{idx:02d}.tfrecord"`, writes
`n_records` files, and file `k` receives exactly the examples at
positions `idx` with `idx % n_records = k`, serialized in input order —
so each example lands in exactly one file and order within a file is
preserved. -/
theorem C7_save_tfrecords_round_robin (name : String)
    (data : List (Chapter13.Tensor × Int)) (n : Nat) (hn : 1 ≤ n) :
    (Chapter13.save_tfrecords name data n).1
        = (List.range n).map (Chapter13.tfrecordName name)
    ∧ (Chapter13.save_tfrecords name data n).2.length = n
    ∧ ∀ k, k < n →
        (Chapter13.save_tfrecords name data n).2.getD k []
          = (data.enum.filter (fun p => p.1 % n == k)).map
              (fun p => Chapter13.create_example p.2.1 p.2.2) := by
  refine ⟨rfl, ?_, ?_⟩
  · show (data.enum.foldl _ (List.replicate n [])).length = n
    rw [save_fold_length, List.length_replicate]
  · intro k hk
    exact save_tfrecords_files_getD name data n hn k hk

/-- Witness for C7 with three examples over two files: positions 0 and 2
go to file 0, position 1 to file 1. -/
theorem C7_save_tfrecords_round_robin_witness :
    (Chapter13.save_tfrecords "x" [(⟨[1], [7]⟩, 0), (⟨[1], [8]⟩, 1), (⟨[1], [9]⟩, 2)] 2).1
        = (List.range 2).map (Chapter13.tfrecordName "x")
    ∧ (Chapter13.save_tfrecords "x"
        [(⟨[1], [7]⟩, 0), (⟨[1], [8]⟩, 1), (⟨[1], [9]⟩, 2)] 2).2.length = 2
    ∧ ∀ k, k < 2 →
        (Chapter13.save_tfrecords "x"
            [(⟨[1], [7]⟩, 0), (⟨[1], [8]⟩, 1), (⟨[1], [9]⟩, 2)] 2).2.getD k []
          = (([(⟨[1], [7]⟩, 0), (⟨[1], [8]⟩, 1),
              (⟨[1], [9]⟩, 2)] : List (Chapter13.Tensor × Int)).enum.filter
                (fun p => p.1 % 2 == k)).map
              (fun p => Chapter13.create_example p.2.1 p.2.2) :=
  C7_save_tfrecords_round_robin "x" [(⟨[1], [7]⟩, 0), (⟨[1], [8]⟩, 1), (⟨[1], [9]⟩, 2)] 2
    (by decide)

/-- C6 counterexample: the repository does own file-writing code — at a
concrete one-example dataset, `save_tfrecords` produces a file under the
repository's naming scheme whose content is the repository's own
`Example` schema. -/
theorem C6_writes_files_counterexample :
    (Chapter13.save_tfrecords "fashion_mnist-train" [(⟨[1], [7]⟩, 4)] 1).1
        = ["fashion_mnist-train_00.tfrecord"]
    ∧ (Chapter13.save_tfrecords "fashion_mnist-train" [(⟨[1], [7]⟩, 4)] 1).2
        = [[Chapter13.create_example ⟨[1], [7]⟩ 4]] :=
  ⟨rfl, rfl⟩

/-- A throwaway record for `List.getD` defaults. -/
def dummyRecord : Chapter13.Tensor × Int := (⟨[], []⟩, 0)

/-- C6 (amended): the repository does own a bespoke on-disk layout:
`save_tfrecords` writes the dataset into `n_records` files under the
repository-chosen names `f"{name}_{idx:02d}.tfrecord"`, and the example
at position `idx` is written — in the repository-chosen `Example`
feature schema of `create_example` — into the file of index
`idx % n_records`. -/
theorem C6_save_tfrecords_owns_layout (name : String)
    (data : List (Chapter13.Tensor × Int)) (n : Nat) (hn : 1 ≤ n) :
    (Chapter13.save_tfrecords name data n).1
        = (List.range n).map (Chapter13.tfrecordName name)
    ∧ ∀ idx, idx < data.length →
        Chapter13.create_example (data.getD idx dummyRecord).1
            (data.getD idx dummyRecord).2
          ∈ (Chapter13.save_tfrecords name data n).2.getD (idx % n) [] := by
  refine ⟨rfl, ?_⟩
  intro idx hidx
  rw [save_tfrecords_files_getD name data n hn (idx % n) (Nat.mod_lt idx hn)]
  have hgetD : data.getD idx dummyRecord = data[idx] := by
    rw [List.getD_eq_getElem?_getD, List.getElem?_eq_getElem hidx]
    rfl
  have hmem : (idx, data[idx]) ∈ data.enum := by
    apply List.getElem?_mem
    rw [List.getElem?_enum, List.getElem?_eq_getElem hidx]
    rfl
  refine List.mem_map.mpr ⟨(idx, data[idx]), List.mem_filter.mpr ⟨hmem, by simp⟩, ?_⟩
  rw [hgetD]

/- ### C8: get_vocabulary -/

/-- Invariant of the `Counter` loop after processing the token list
`ws`: the keys are distinct, never `<pad>`, each entry carries the
number of occurrences of its key in `ws`, and the keys are exactly the
non-pad tokens seen. -/
def CounterInv (acc : List (Chapter13.Token × Nat)) (ws : List Chapter13.Token) : Prop :=
  (acc.map Prod.fst).Nodup
  ∧ (∀ p ∈ acc, p.1 ≠ Chapter13.padToken)
  ∧ (∀ p ∈ acc, p.2 = ws.count p.1)
  ∧ (∀ w, w ≠ Chapter13.padToken → (w ∈ acc.map Prod.fst ↔ w ∈ ws))

theorem counterInv_nil : CounterInv [] [] :=
  ⟨by simp, by simp, by simp, by simp⟩

theorem bump_cond (acc : List (Chapter13.Token × Nat)) (t : Chapter13.Token) :
    acc.any (fun p => p.1 == t) = true ↔ t ∈ acc.map Prod.fst := by
  simp only [List.any_eq_true, beq_iff_eq, List.mem_map]

theorem counterStep_inv (acc : List (Chapter13.Token × Nat)) (ws : List Chapter13.Token)
    (t : Chapter13.Token) (h : CounterInv acc ws) :
    CounterInv (Chapter13.counterStep acc t) (ws ++ [t]) := by
  obtain ⟨h1, h2, h3, h4⟩ := h
  unfold Chapter13.counterStep
  by_cases hpad : t = Chapter13.padToken
  · rw [if_pos hpad]
    refine ⟨h1, h2, ?_, ?_⟩
    · intro p hp
      have hcount : List.count p.1 [t] = 0 := by
        rw [List.count_eq_zero]
        simp only [List.mem_singleton]
        intro heq
        exact h2 p hp (heq ▸ hpad)
      rw [List.count_append, hcount, Nat.add_zero]
      exact h3 p hp
    · intro w hw
      rw [h4 w hw, List.mem_append, List.mem_singleton]
      constructor
      · exact Or.inl
      · rintro (hws | rfl)
        · exact hws
        · exact absurd hpad hw
  · rw [if_neg hpad]
    unfold Chapter13.bump
    by_cases hmem : t ∈ acc.map Prod.fst
    · rw [if_pos ((bump_cond acc t).mpr hmem)]
      have keys_eq : ((acc.map (fun p => if p.1 = t then (p.1, p.2 + 1) else p)).map
          Prod.fst) = acc.map Prod.fst := by
        rw [List.map_map]
        refine List.map_congr_left fun p hp => ?_
        by_cases hpt : p.1 = t <;> simp [hpt]
      refine ⟨keys_eq ▸ h1, ?_, ?_, ?_⟩
      · intro p' hp'
        obtain ⟨p, hp, rfl⟩ := List.mem_map.mp hp'
        by_cases hpt : p.1 = t <;> simp only [hpt, if_true, if_false, ite_true,
          ite_false] <;> simp [h2 p hp, hpad]
      · intro p' hp'
        obtain ⟨p, hp, rfl⟩ := List.mem_map.mp hp'
        by_cases hpt : p.1 = t
        · simp only [hpt, ite_true]
          rw [List.count_append, ← hpt]
          simp [List.count_cons, h3 p hp]
        · simp only [hpt, ite_false]
          rw [List.count_append, h3 p hp]
          have : List.count p.1 [t] = 0 := by
            rw [List.count_eq_zero, List.mem_singleton]
            exact hpt
          omega
      · intro w hw
        rw [keys_eq, List.mem_append, List.mem_singleton]
        by_cases hwt : w = t
        · subst hwt
          have hws : w ∈ ws := (h4 w hw).mp hmem
          simp [hmem, hws]
        · rw [h4 w hw]
          constructor
          · exact Or.inl
          · rintro (hws | rfl)
            · exact hws
            · exact absurd rfl hwt
    · rw [if_neg (by rw [bump_cond]; exact hmem)]
      have keys_eq : ((acc ++ [(t, 1)]).map Prod.fst) = acc.map Prod.fst ++ [t] := by
        simp
      refine ⟨?_, ?_, ?_, ?_⟩
      · rw [keys_eq]
        simp only [List.nodup_append, List.nodup_cons, List.not_mem_nil,
          not_false_iff, List.nodup_nil, and_true, true_and]
        refine ⟨h1, ?_⟩
        intro a ha
        simp only [List.mem_singleton]
        intro heq
        exact hmem (heq ▸ ha)
      · intro p hp
        rcases List.mem_append.mp hp with hp | hp
        · exact h2 p hp
        · rw [List.mem_singleton.mp hp]
          exact hpad
      · intro p hp
        rcases List.mem_append.mp hp with hp | hp
        · have hpt : p.1 ≠ t := by
            intro heq
            exact hmem (heq ▸ List.mem_map_of_mem Prod.fst hp)
          have : List.count p.1 [t] = 0 := by
            rw [List.count_eq_zero, List.mem_singleton]
            exact hpt
          rw [List.count_append, this, Nat.add_zero]
          exact h3 p hp
        · rw [List.mem_singleton.mp hp]
          have hnotws : t ∉ ws := fun hws => hmem ((h4 t hpad).mpr hws)
          simp [List.count_append, List.count_eq_zero.mpr hnotws]
      · intro w hw
        simp only [keys_eq, List.mem_append, List.mem_singleton, h4 w hw]

theorem counter_fold_inv (ts : List Chapter13.Token) :
    ∀ (acc : List (Chapter13.Token × Nat)) (ws : List Chapter13.Token),
    CounterInv acc ws → CounterInv (ts.foldl Chapter13.counterStep acc) (ws ++ ts) := by
  induction ts with
  | nil =>
    intro acc ws h
    simpa using h
  | cons t ts ih =>
    intro acc ws h
    rw [List.foldl_cons]
    have := ih (Chapter13.counterStep acc t) (ws ++ [t]) (counterStep_inv acc ws t h)
    simpa [List.append_assoc] using this

theorem counterOf_eq_foldl_flatten (rows : List (List Chapter13.Token)) :
    Chapter13.counterOf rows = rows.flatten.foldl Chapter13.counterStep [] := by
  rw [Chapter13.counterOf, List.foldl_flatten]

theorem counterOf_inv (rows : List (List Chapter13.Token)) :
    CounterInv (Chapter13.counterOf rows) rows.flatten := by
  rw [counterOf_eq_foldl_flatten]
  simpa using counter_fold_inv rows.flatten [] [] counterInv_nil

/-- C8: `get_vocabulary` is well formed: `<pad>` comes first, the length
is at most `max_size + 1`, there are no duplicates, `<pad>` is never
among the counted words, and the remaining words are listed in
non-increasing order of their frequency in the preprocessed sample. -/
theorem C8_get_vocabulary_well_formed (sample : List (List Char)) (max_size : Nat) :
    (Chapter13.get_vocabulary sample max_size).head? = some Chapter13.padToken
    ∧ (Chapter13.get_vocabulary sample max_size).length ≤ max_size + 1
    ∧ (Chapter13.get_vocabulary sample max_size).Nodup
    ∧ Chapter13.padToken ∉ (Chapter13.get_vocabulary sample max_size).tail
    ∧ (Chapter13.get_vocabulary sample max_size).tail.Pairwise
        (fun a b => (Chapter13.preprocess_text sample 50).flatten.count b
          ≤ (Chapter13.preprocess_text sample 50).flatten.count a) := by
  have inv := counterOf_inv (Chapter13.preprocess_text sample 50)
  obtain ⟨hnodup, hnopad, hcounts, -⟩ := inv
  set counts := Chapter13.counterOf (Chapter13.preprocess_text sample 50) with hcountsdef
  set le := fun a b : Chapter13.Token × Nat => decide (b.2 ≤ a.2) with hledef
  have hperm : (counts.mergeSort le).Perm counts := List.mergeSort_perm counts le
  have hsorted : (counts.mergeSort le).Pairwise (fun a b => le a b = true) :=
    List.sorted_mergeSort
      (by intro a b c hab hbc; simp only [hledef, decide_eq_true_eq] at *; omega)
      (by intro a b; simp only [hledef, Bool.or_eq_true, decide_eq_true_eq]; omega)
      counts
  have htake_sub : (Chapter13.most_common counts max_size).Sublist (counts.mergeSort le) :=
    List.take_sublist max_size (counts.mergeSort le)
  have htake_mem : ∀ p ∈ Chapter13.most_common counts max_size, p ∈ counts :=
    fun p hp => hperm.mem_iff.mp (htake_sub.subset hp)
  have hkeys_nodup : ((Chapter13.most_common counts max_size).map Prod.fst).Nodup := by
    have hms : ((counts.mergeSort le).map Prod.fst).Nodup :=
      hnodup.perm (hperm.map Prod.fst).symm
    have : ((Chapter13.most_common counts max_size).map Prod.fst).Sublist
        ((counts.mergeSort le).map Prod.fst) := htake_sub.map Prod.fst
    exact this.nodup hms
  have hpad_not : Chapter13.padToken ∉
      (Chapter13.most_common counts max_size).map Prod.fst := by
    intro hmem
    obtain ⟨p, hp, hfst⟩ := List.mem_map.mp hmem
    exact hnopad p (htake_mem p hp) hfst
  have hpair : (Chapter13.most_common counts max_size).Pairwise
      (fun a b => (Chapter13.preprocess_text sample 50).flatten.count b.1
        ≤ (Chapter13.preprocess_text sample 50).flatten.count a.1) := by
    refine (hsorted.sublist htake_sub).imp_of_mem ?_
    intro a b ha hb hr
    rw [← hcounts a (htake_mem a ha), ← hcounts b (htake_mem b hb)]
    simpa [hledef] using hr
  have htail : (Chapter13.get_vocabulary sample max_size).tail
      = (Chapter13.most_common counts max_size).map Prod.fst := rfl
  refine ⟨rfl, ?_, ?_, ?_, ?_⟩
  · show ((Chapter13.most_common counts max_size).map Prod.fst).length + 1 ≤ max_size + 1
    rw [List.length_map, Chapter13.most_common, List.length_take]
    omega
  · rw [show Chapter13.get_vocabulary sample max_size
      = Chapter13.padToken :: (Chapter13.most_common counts max_size).map Prod.fst from rfl,
      List.nodup_cons]
    exact ⟨hpad_not, hkeys_nodup⟩
  · rw [htail]
    exact hpad_not
  · rw [htail]
    exact List.pairwise_map.mpr hpair

/-- Witness for C6's amended statement on a two-example dataset. -/
theorem C6_save_tfrecords_owns_layout_witness :
    (Chapter13.save_tfrecords "val" [(⟨[1], [7]⟩, 0), (⟨[1], [8]⟩, 1)] 2).1
        = (List.range 2).map (Chapter13.tfrecordName "val")
    ∧ ∀ idx, idx < ([(⟨[1], [7]⟩, 0),
          (⟨[1], [8]⟩, 1)] : List (Chapter13.Tensor × Int)).length →
        Chapter13.create_example
            (([(⟨[1], [7]⟩, 0), (⟨[1], [8]⟩, 1)] :
              List (Chapter13.Tensor × Int)).getD idx dummyRecord).1
            (([(⟨[1], [7]⟩, 0), (⟨[1], [8]⟩, 1)] :
              List (Chapter13.Tensor × Int)).getD idx dummyRecord).2
          ∈ (Chapter13.save_tfrecords "val"
              [(⟨[1], [7]⟩, 0), (⟨[1], [8]⟩, 1)] 2).2.getD (idx % 2) [] :=
  C6_save_tfrecords_owns_layout "val" [(⟨[1], [7]⟩, 0), (⟨[1], [8]⟩, 1)] 2 (by decide)

/- ### C9: cross-notebook independence -/

/-- C9: the `preprocess` of Chapter-13 and the `preprocess` of
Chapter-14 are independent definitions: evaluated in any two kernel
contexts — whatever another notebook defined, executed or mutated — each
returns the same result on the same input, so running one notebook never
changes what a function of the other returns. -/
theorem C9_notebooks_independent {σ τ : Type} (s₁ s₂ : σ) (t₁ t₂ : τ)
    (tfrecord : Chapter13.RawExample)
    (resizeFn : List (List ℚ) → List (List ℚ)) (image : List (List ℚ)) (label : Int) :
    chapter13_preprocess_in_context s₁ tfrecord
        = chapter13_preprocess_in_context s₂ tfrecord
    ∧ chapter14_preprocess_in_context t₁ resizeFn image label
        = chapter14_preprocess_in_context t₂ resizeFn image label :=
  ⟨rfl, rfl⟩
